import Mathlib

/-!
Verification of the asynchronous operation primitive of pyhaystack
(`pyhaystack/util/operation.py`, class `BaseHaystackOperation`).

The embedding models:
  * Python values with object identity (`PyVal`): atoms (None, ints,
    strings, booleans) are immutable immediates without a distinct
    identity, containers carry an address (`Nat`) as their identity.
  * the `copy.copy` / `copy.deepcopy` protocol of the Python standard
    library: a shallow copy of a container is a new object sharing all
    immediate elements, a deep copy is a structurally equal value with
    entirely fresh addresses; copying an immutable atom returns the very
    same value (CPython's `_copy_immutable`).
  * the state of a `BaseHaystackOperation` object (`OpState`) and a
    `World` holding the operation together with the future cells handed
    out by the `future` property.
Fresh addresses for copies are drawn from an explicit allocation counter
`k`: every address allocated by a copy is `>= k`.
-/

/-- Immutable Python atoms: `None`, integers, strings, booleans.
CPython's copy protocol returns these unchanged. -/
inductive Atom where
  | pnone : Atom
  | pint : Int → Atom
  | pstr : String → Atom
  | pbool : Bool → Atom
deriving DecidableEq, Repr

mutual

/-- A Python value: an immutable atom, or a container object with an
address (its identity) and a list of elements. -/
inductive PyVal where
  | atom : Atom → PyVal
  | ref : Nat → PyList → PyVal

/-- The elements of a Python container. -/
inductive PyList where
  | nil : PyList
  | cons : PyVal → PyList → PyList

end

mutual

/-- All container addresses occurring in a value. -/
def PyVal.addrs : PyVal → List Nat
  | .atom _ => []
  | .ref a xs => a :: PyList.addrs xs

/-- All container addresses occurring in a list of values. -/
def PyList.addrs : PyList → List Nat
  | .nil => []
  | .cons x xs => PyVal.addrs x ++ PyList.addrs xs

end

/-- The identity (address) of a value's root object, if it is a
container; atoms have no separate identity. -/
def PyVal.rootAddr : PyVal → Option Nat
  | .atom _ => none
  | .ref a _ => some a

/-- Model of Python's `x is y` on our values: containers are the same
object iff they have the same address; atoms are immutable immediates,
identified with their value. -/
def PyVal.isSameObject : PyVal → PyVal → Bool
  | .ref n _, .ref m _ => n == m
  | .atom a, .atom b => a == b
  | _, _ => false

/-- `copy.copy`: a shallow copy.  A container becomes a new object
(fresh address) whose element list is the very same list (all elements
shared); an immutable atom is returned unchanged. -/
def shallowCopyVal (v : PyVal) (fresh : Nat) : PyVal :=
  match v with
  | .atom a => .atom a
  | .ref _ xs => .ref fresh xs

mutual

/-- `copy.deepcopy`: a deep copy.  Every container gets a fresh address
drawn from the counter; atoms are returned unchanged.  Returns the copy
and the next unused counter value. -/
def deepCopyVal : PyVal → Nat → PyVal × Nat
  | .atom a, k => (.atom a, k)
  | .ref _ xs, k =>
      let p := deepCopyList xs (k + 1)
      (.ref k p.1, p.2)

/-- Deep copy of a container's element list. -/
def deepCopyList : PyList → Nat → PyList × Nat
  | .nil, k => (.nil, k)
  | .cons x xs, k =>
      let p := deepCopyVal x k
      let q := deepCopyList xs p.2
      (.cons p.1 q.1, q.2)

end

mutual

/-- A value stripped of its addresses: the pure structure/content. -/
inductive EVal where
  | atom : Atom → EVal
  | ref : EList → EVal

/-- A list of values stripped of addresses. -/
inductive EList where
  | nil : EList
  | cons : EVal → EList → EList

end

mutual

/-- Erase the addresses of a value, keeping its structure. -/
def PyVal.erase : PyVal → EVal
  | .atom a => .atom a
  | .ref _ xs => .ref (PyList.erase xs)

/-- Erase the addresses of an element list. -/
def PyList.erase : PyList → EList
  | .nil => .nil
  | .cons x xs => .cons (PyVal.erase x) (PyList.erase xs)

end

/-- Modelled from the spec: `AsynchronousException`
(`pyhaystack/util/asyncexc.py` is not under `src/`).  Per the spec's
ExceptionCapture / CapturedFailure component, it captures the failure
kind (class) and message of an in-flight exception; once constructed it
is immutable. -/
structure AsynchronousException where
  kind : String
  message : String
deriving DecidableEq, Repr

/-- A failure raised in the consumer's context (the exception observed
by the caller of `result`, or carried by a rejected future). -/
structure RaisedFailure where
  kind : String
  message : String
deriving DecidableEq, Repr

/-- Modelled from the spec: `AsynchronousException.reraise`
(`pyhaystack/util/asyncexc.py` is not under `src/`).  Re-raises an
equivalent failure — same kind and message — in the calling context. -/
def AsynchronousException.reraise (e : AsynchronousException) : RaisedFailure :=
  { kind := e.kind, message := e.message }

/-- The `NotReadyError` raised by `result` before completion, as an
exception value (`_set_future` catches it like any other). -/
def notReadyFailure : RaisedFailure :=
  { kind := "NotReadyError", message := "" }

/-- The `_result` attribute: after completion it holds either a success
value or a captured failure (`AsynchronousException`); before completion
it holds the Python `None` the constructor stored, which is simply the
value `PyVal.atom .pnone`. -/
inductive StoredResult where
  | val : PyVal → StoredResult
  | exc : AsynchronousException → StoredResult

/-- Whether a stored result is a captured failure
(`isinstance(self._result, AsynchronousException)`). -/
def StoredResult.isExc : StoredResult → Bool
  | .val _ => false
  | .exc _ => true

/-- The initial `_result` set by `__init__`: Python `None`. -/
def StoredResult.unset : StoredResult := .val (.atom .pnone)

/-- A slot connected to `done_sig`: either an ordinary consumer callback
(identified by a number) or the `_on_done` closure of the `future`
property, which sets the future cell with the given index. -/
inductive Listener where
  | plain : Nat → Listener
  | futureBridge : Nat → Listener
deriving DecidableEq, Repr

/-- The state of a `BaseHaystackOperation` object.

`sm_finished` and `sm_current` model the externally supplied
`_state_machine` (its `is_finished()` predicate and `current` state);
`done_evt` is the `threading.Event`; `listeners` and `sig_fired` model
the `done_sig` signal (see `OpState.resultWithState` etc. for the
operation's own methods); `res` is `_result`, and the two flags are
`_result_copy` / `_result_deepcopy` fixed at construction. -/
structure OpState where
  sm_finished : Bool
  sm_current : String
  done_evt : Bool
  listeners : List Listener
  sig_fired : Bool
  res : StoredResult
  result_copy : Bool
  result_deepcopy : Bool

/-- The state `__init__` leaves behind: event unset, no slots connected,
signal not fired, `_result = None`, flags as passed.  The externally
supplied state machine starts in `smc` with terminal status `smf`. -/
def OpState.init (rc rdc : Bool) (smf : Bool) (smc : String) : OpState :=
  { sm_finished := smf
    sm_current := smc
    done_evt := false
    listeners := []
    sig_fired := false
    res := StoredResult.unset
    result_copy := rc
    result_deepcopy := rdc }

/-- `state` property: the state machine's current state. -/
def OpState.state (op : OpState) : String := op.sm_current

/-- `is_done` property: `self._state_machine.is_finished()`. -/
def OpState.is_done (op : OpState) : Bool := op.sm_finished

/-- `is_failed` property:
`isinstance(self._result, AsynchronousException)`. -/
def OpState.is_failed (op : OpState) : Bool := op.res.isExc

/-- What a call of the `result` property does: raise `NotReadyError`,
re-raise the captured failure, or return a value. -/
inductive ResultOutcome where
  | notReady : ResultOutcome
  | raised : RaisedFailure → ResultOutcome
  | value : PyVal → ResultOutcome

/-- The `result` property, with the operation's state threaded
explicitly (the source contains no assignment, so the state passes
through unchanged on every path):

* not done → raise `NotReadyError`;
* failed → `self._result.reraise()`;
* `not self._result_copy` → return `self._result` itself;
* `self._result_deepcopy` → return `deepcopy(self._result)`;
* otherwise → return `copy(self._result)`.

`k` is the allocation counter supplying fresh addresses to copies. -/
def OpState.resultWithState (op : OpState) (k : Nat) :
    ResultOutcome × OpState :=
  if !op.is_done then (.notReady, op)
  else
    match op.res with
    | .exc e => (.raised e.reraise, op)
    | .val v =>
      if !op.result_copy then (.value v, op)
      else if op.result_deepcopy then (.value (deepCopyVal v k).1, op)
      else (.value (shallowCopyVal v k), op)

/-- The outcome of reading `result` (the state component dropped). -/
def OpState.resultAccessor (op : OpState) (k : Nat) : ResultOutcome :=
  (op.resultWithState k).1

/-- A future cell (`asyncio.futures.Future`): single-assignment, either
still pending or resolved with a value or rejected with an exception. -/
inductive FutureState where
  | pending : FutureState
  | resolved : PyVal → FutureState
  | rejected : RaisedFailure → FutureState

/-- `_set_future`: `try: future.set_result(self.result)` with every
exception `e` (a re-raised failure or the `NotReadyError`) caught and
turned into `future.set_exception(e)`.  Returns the state the future is
set to. -/
def OpState.set_future (op : OpState) (k : Nat) : FutureState :=
  match op.resultAccessor k with
  | .value v => .resolved v
  | .raised e => .rejected e
  | .notReady => .rejected notReadyFailure

/-- An operation object together with the future cells handed out by
the `future` property (indexed by allocation order). -/
structure World where
  op : OpState
  futures : List FutureState

/-- A fresh world around a freshly constructed operation. -/
def World.init (rc rdc : Bool) (smf : Bool) (smc : String) : World :=
  { op := OpState.init rc rdc smf smc, futures := [] }

/-- One delivery of `done_sig` notifying a slot, with the keyword
payload `operation=self`: the payload is the operation object as the
slot observes it at delivery time. -/
structure Notification where
  listener : Listener
  payload : OpState

/-- `done_sig.emit(operation=self)` delivering to the connected slots in
order, starting from future cells `futures`.  A `futureBridge idx` slot
is the `_on_done` closure: it runs `self._set_future(future)` on cell
`idx`; a plain slot is an external consumer callback, recorded as a
notification.  Every slot receives the operation (state `op`) as
payload.  `emit` runs synchronously on the completing thread. -/
def deliver (op : OpState) (k : Nat) :
    List Listener → List FutureState → List FutureState × List Notification
  | [], futures => (futures, [])
  | l :: rest, futures =>
    match l with
    | .futureBridge idx =>
        let p := deliver op k rest (futures.set idx (op.set_future k))
        (p.1, { listener := l, payload := op } :: p.2)
    | .plain _ =>
        let p := deliver op k rest futures
        (p.1, { listener := l, payload := op } :: p.2)

/-- `_done(result)`, the completion entry point, exactly as written:
`self._result = result`, then `self._done_evt.set()`, then
`self.done_sig.emit(operation=self)`.  Returns the world after the call
and the notifications delivered to the connected slots during the
`emit`. -/
def World.opDone (w : World) (r : StoredResult) (k : Nat) :
    World × List Notification :=
  let op1 : OpState := { w.op with res := r }
  let op2 : OpState := { op1 with done_evt := true }
  let op3 : OpState := { op2 with sig_fired := true }
  let p := deliver op3 k op3.listeners w.futures
  ({ op := op3, futures := p.1 }, p.2)

/-- Modelled from the spec: `done_sig.connect` (the `signalslot.Signal`
class is not under `src/`).  Per the spec's CompletionSignal contract,
`subscribe(listener)` registers the callback and, if completion already
occurred, invokes it immediately — synchronously, before `subscribe`
returns — with the operation as payload.  Returns the world after the
call and the immediate invocations it performed. -/
def World.subscribe (w : World) (lid : Nat) :
    World × List Notification :=
  let l : Listener := .plain lid
  let op1 : OpState := { w.op with listeners := w.op.listeners ++ [l] }
  if w.op.sig_fired then
    ({ w with op := op1 }, [{ listener := l, payload := op1 }])
  else
    ({ w with op := op1 }, [])

/-- The `future` property: `future = Future()`, then if `self.is_done`
run `self._set_future(future)` at once, else connect the `_on_done`
closure to `done_sig`.  Returns the world after the call and the index
of the new future cell. -/
def World.futureProp (w : World) (k : Nat) : World × Nat :=
  let idx := w.futures.length
  if w.op.is_done then
    ({ op := w.op, futures := w.futures ++ [w.op.set_future k] }, idx)
  else
    ({ op := { w.op with listeners := w.op.listeners ++ [.futureBridge idx] },
       futures := w.futures ++ [FutureState.pending] }, idx)

/-- `wait(timeout=None)`: the body is the single expression statement
`self._done_evt.wait(timeout)` and the method returns Python `None`.
`threading.Event.wait` returns a boolean — whether the internal flag was
set when the call returned (`False` only on timeout); that boolean
depends on runtime timing, so it enters the model as the oracle
parameter `evtWaitResult`.  The source discards it. -/
def OpState.wait (op : OpState) (timeout : Option Nat)
    (evtWaitResult : Bool) : PyVal :=
  let _ := op.done_evt
  let _ := timeout
  let _ := evtWaitResult
  .atom .pnone

/-- A sample captured failure used by the concrete witnesses below. -/
def sampleFailure : AsynchronousException :=
  { kind := "TimeoutError", message := "upstream unreachable" }

/-- An event in the life of an operation, as driven by consumers and by
the collaborator that owns it. -/
inductive OpEvent where
  | doneCall : StoredResult → OpEvent
  | smFinish : OpEvent
  | subscribeEv : Nat → OpEvent
  | futureEv : OpEvent

/-- Whether an event is an invocation of the completion entry point. -/
def OpEvent.isDoneCall : OpEvent → Bool
  | .doneCall _ => true
  | _ => false

/-- A trace respecting the at-most-once contract on the completion
entry point never contains a `doneCall`. -/
def noDoneCall (t : List OpEvent) : Bool :=
  t.all (fun e => !e.isDoneCall)

/-- Apply one event to the world: invoke `_done`, let the collaborator's
state machine become terminal, connect a consumer slot to `done_sig`,
or read the `future` property. -/
def World.step (w : World) (e : OpEvent) (k : Nat) : World :=
  match e with
  | .doneCall r => (w.opDone r k).1
  | .smFinish => { w with op := { w.op with sm_finished := true } }
  | .subscribeEv lid => (w.subscribe lid).1
  | .futureEv => (w.futureProp k).1

/-- Run a trace of events left to right. -/
def World.run (w : World) (k : Nat) : List OpEvent → World
  | [] => w
  | e :: t => (w.step e k).run k t

/-- A concrete nested container used by the C2 witness: a list holding
one inner list (addresses 0 and 1). -/
def vC2 : PyVal :=
  PyVal.ref 0 (PyList.cons (PyVal.ref 1 PyList.nil) PyList.nil)

/-- A concrete completed operation in deep-copy mode holding `vC2`. -/
def opC2 : OpState :=
  { OpState.init true true true "done" with res := StoredResult.val vC2 }

mutual

/-- A deep copy has the same structure and content as the original. -/
theorem erase_deepCopyVal : ∀ (v : PyVal) (k : Nat),
    PyVal.erase (deepCopyVal v k).1 = PyVal.erase v
  | .atom _, _ => rfl
  | .ref _ xs, k => by
      simp [deepCopyVal, PyVal.erase, erase_deepCopyList xs (k + 1)]

theorem erase_deepCopyList : ∀ (xs : PyList) (k : Nat),
    PyList.erase (deepCopyList xs k).1 = PyList.erase xs
  | .nil, _ => rfl
  | .cons x xs, k => by
      simp [deepCopyList, PyList.erase, erase_deepCopyVal x k,
        erase_deepCopyList xs (deepCopyVal x k).2]

end

mutual

theorem deepCopy_counter_mono_val : ∀ (v : PyVal) (k : Nat),
    k ≤ (deepCopyVal v k).2
  | .atom _, _ => Nat.le_refl _
  | .ref _ xs, k => by
      simp only [deepCopyVal]
      have := deepCopy_counter_mono_list xs (k + 1)
      omega

theorem deepCopy_counter_mono_list : ∀ (xs : PyList) (k : Nat),
    k ≤ (deepCopyList xs k).2
  | .nil, _ => Nat.le_refl _
  | .cons x xs, k => by
      simp only [deepCopyList]
      have h1 := deepCopy_counter_mono_val x k
      have h2 := deepCopy_counter_mono_list xs (deepCopyVal x k).2
      omega

end

mutual

/-- Every address of a deep copy is at least the allocation counter:
deep copies use only fresh addresses. -/
theorem addrs_deepCopyVal_lb : ∀ (v : PyVal) (k : Nat),
    ∀ a ∈ PyVal.addrs (deepCopyVal v k).1, k ≤ a
  | .atom _, _ => by simp [deepCopyVal, PyVal.addrs]
  | .ref _ xs, k => by
      simp only [deepCopyVal, PyVal.addrs, List.mem_cons]
      intro a ha
      rcases ha with h | h
      · omega
      · have := addrs_deepCopyList_lb xs (k + 1) a h
        omega

theorem addrs_deepCopyList_lb : ∀ (xs : PyList) (k : Nat),
    ∀ a ∈ PyList.addrs (deepCopyList xs k).1, k ≤ a
  | .nil, _ => by simp [deepCopyList, PyList.addrs]
  | .cons x xs, k => by
      simp only [deepCopyList, PyList.addrs, List.mem_append]
      intro a ha
      rcases ha with h | h
      · exact addrs_deepCopyVal_lb x k a h
      · have h2 := addrs_deepCopyList_lb xs (deepCopyVal x k).2 a h
        have h3 := deepCopy_counter_mono_val x k
        omega

end

/-- The notifications `emit` delivers: one per connected slot, in
connection order, each carrying the operation itself as payload. -/
theorem deliver_snd (op : OpState) (k : Nat) :
    ∀ (ls : List Listener) (fs : List FutureState),
      (deliver op k ls fs).2 =
        ls.map (fun l => { listener := l, payload := op }) := by
  intro ls
  induction ls with
  | nil => intro fs; rfl
  | cons l rest ih =>
      intro fs
      cases l with
      | futureBridge idx => simp [deliver, ih]
      | plain lid => simp [deliver, ih]

/-- Delivery does not change how many future cells exist. -/
theorem deliver_length (op : OpState) (k : Nat) :
    ∀ (ls : List Listener) (fs : List FutureState),
      (deliver op k ls fs).1.length = fs.length := by
  intro ls
  induction ls with
  | nil => intro fs; rfl
  | cons l rest ih =>
      intro fs
      cases l with
      | futureBridge idx => simp [deliver, ih]
      | plain lid => simp [deliver, ih]

/-- A future cell already holding the value `_set_future` writes keeps
it across delivery (every bridge writes that same value). -/
theorem deliver_get_preserve (op : OpState) (k : Nat) :
    ∀ (ls : List Listener) (fs : List FutureState) (j : Nat),
      fs[j]? = some (op.set_future k) →
      ((deliver op k ls fs).1)[j]? = some (op.set_future k) := by
  intro ls
  induction ls with
  | nil => intro fs j h; exact h
  | cons l rest ih =>
      intro fs j h
      cases l with
      | plain lid => simpa [deliver] using ih fs j h
      | futureBridge idx =>
          simp only [deliver]
          apply ih
          by_cases hij : idx = j
          · subst hij
            have hlt : idx < fs.length := by
              have := List.getElem?_eq_some_iff.mp h
              exact this.1
            exact List.getElem?_set_eq_of_lt _ hlt
          · rw [List.getElem?_set_ne hij]
            exact h

/-- After delivery, every future cell whose bridge slot was connected
holds exactly the state `_set_future` produces from the completed
operation. -/
theorem deliver_get_bridge (op : OpState) (k : Nat) :
    ∀ (ls : List Listener) (fs : List FutureState) (j : Nat),
      Listener.futureBridge j ∈ ls → j < fs.length →
      ((deliver op k ls fs).1)[j]? = some (op.set_future k) := by
  intro ls
  induction ls with
  | nil => intro fs j hmem; exact absurd hmem (List.not_mem_nil _)
  | cons l rest ih =>
      intro fs j hmem hlt
      cases l with
      | plain lid =>
          have hmem2 : Listener.futureBridge j ∈ rest := by
            rcases List.mem_cons.mp hmem with h | h
            · exact absurd h (by simp)
            · exact h
          simpa [deliver] using ih fs j hmem2 hlt
      | futureBridge idx =>
          simp only [deliver]
          by_cases hij : idx = j
          · subst hij
            apply deliver_get_preserve
            exact List.getElem?_set_eq_of_lt _ hlt
          · have hmem2 : Listener.futureBridge j ∈ rest := by
              rcases List.mem_cons.mp hmem with h | h
              · cases h; exact absurd rfl hij
              · exact h
            apply ih _ _ hmem2
            simpa using hlt

/-- Any event other than an invocation of the completion entry point
leaves `_result`, the done event and the construction-time copy flags
untouched. -/
theorem step_not_done (w : World) (e : OpEvent) (k : Nat)
    (h : e.isDoneCall = false) :
    (w.step e k).op.res = w.op.res
    ∧ (w.step e k).op.done_evt = w.op.done_evt
    ∧ (w.step e k).op.result_copy = w.op.result_copy
    ∧ (w.step e k).op.result_deepcopy = w.op.result_deepcopy := by
  cases e with
  | doneCall r => simp [OpEvent.isDoneCall] at h
  | smFinish => exact ⟨rfl, rfl, rfl, rfl⟩
  | subscribeEv lid =>
      cases h2 : w.op.sig_fired <;>
        simp [World.step, World.subscribe, h2]
  | futureEv =>
      cases h2 : w.op.is_done <;>
        simp [World.step, World.futureProp, h2]

/-- Along a trace that never invokes the completion entry point,
`_result`, the done event and the copy flags keep their values. -/
theorem run_noDoneCall (k : Nat) :
    ∀ (t : List OpEvent) (w : World), noDoneCall t = true →
      (w.run k t).op.res = w.op.res
      ∧ (w.run k t).op.done_evt = w.op.done_evt
      ∧ (w.run k t).op.result_copy = w.op.result_copy
      ∧ (w.run k t).op.result_deepcopy = w.op.result_deepcopy := by
  intro t
  induction t with
  | nil => intro w _; exact ⟨rfl, rfl, rfl, rfl⟩
  | cons e t ih =>
      intro w h
      have h2 : ((!e.isDoneCall) && noDoneCall t) = true := by
        simpa [noDoneCall] using h
      rw [Bool.and_eq_true] at h2
      have he : e.isDoneCall = false := by simpa using h2.1
      have hs := step_not_done w e k he
      have hr := ih (w.step e k) h2.2
      exact ⟨hs.1 ▸ hr.1, hs.2.1 ▸ hr.2.1, hs.2.2.1 ▸ hr.2.2.1,
        hs.2.2.2 ▸ hr.2.2.2⟩

/-- Running an appended trace runs the pieces in sequence. -/
theorem run_append (k : Nat) :
    ∀ (t1 t2 : List OpEvent) (w : World),
      w.run k (t1 ++ t2) = (w.run k t1).run k t2 := by
  intro t1
  induction t1 with
  | nil => intro t2 w; rfl
  | cons e t ih => intro t2 w; simpa [World.run] using ih t2 (w.step e k)

/-- C1: for every operation whose state machine does not yet report
terminal status, reading the `result` accessor raises the NotReady
error, and the operation's stored state is unchanged by the attempt. -/
theorem c1_result_before_done_not_ready (op : OpState) (k : Nat)
    (h : op.is_done = false) :
    op.resultWithState k = (ResultOutcome.notReady, op) := by
  simp [OpState.resultWithState, h]

/-- Witness for C1 at a freshly constructed operation. -/
theorem c1_witness :
    (OpState.init true true false "idle").is_done = false
    ∧ (OpState.init true true false "idle").resultWithState 0 =
        (ResultOutcome.notReady, OpState.init true true false "idle") :=
  ⟨rfl, c1_result_before_done_not_ready (OpState.init true true false "idle")
    0 rfl⟩

/-- C9: for every operation and every timeout value (including none),
`wait(timeout)` returns Python `None`; the boolean result of the
underlying `Event.wait` is discarded, so the return value is the same
whether the operation completed (`evtWaitResult = true`) or the timeout
elapsed (`evtWaitResult = false`). -/
theorem c9_wait_returns_none (op : OpState) (timeout : Option Nat)
    (b : Bool) :
    op.wait timeout b = PyVal.atom Atom.pnone
    ∧ op.wait timeout true = op.wait timeout false :=
  ⟨rfl, rfl⟩

/-- C4: the completion entry point `_done(result)` stores the result,
sets the done event, then fires `done_sig` with the operation object
itself as payload: after the call `_result = result` and the event is
set; the notifications delivered during the `emit` are exactly one per
connected slot, each carrying the operation itself — in the state it has
at delivery time, in which the result is already written and the event
already set (the result write happens before any listener is
notified). -/
theorem c4_done_stores_sets_then_fires (w : World) (r : StoredResult)
    (k : Nat) :
    (w.opDone r k).1.op.res = r
    ∧ (w.opDone r k).1.op.done_evt = true
    ∧ (w.opDone r k).2 = w.op.listeners.map
        (fun l => { listener := l, payload := (w.opDone r k).1.op })
    ∧ ∀ n ∈ (w.opDone r k).2,
        n.payload.res = r ∧ n.payload.done_evt = true := by
  refine ⟨rfl, rfl, ?_, ?_⟩
  · simp [World.opDone, deliver_snd]
  · intro n hn
    simp only [World.opDone, deliver_snd, List.mem_map] at hn
    obtain ⟨l, _, hl⟩ := hn
    rw [← hl]
    exact ⟨rfl, rfl⟩

/-- C8: before the completion entry point has been invoked (along any
trace of subscriptions, future requests and state-machine transitions),
`is_failed` returns `false`; after completion with result `r` it returns
`true` exactly when `r` is a captured failure. -/
theorem c8_is_failed (rc rdc smf : Bool) (smc : String) (k : Nat)
    (t : List OpEvent) (r : StoredResult)
    (h : noDoneCall t = true) :
    ((World.init rc rdc smf smc).run k t).op.is_failed = false
    ∧ ((((World.init rc rdc smf smc).run k t).opDone r k).1.op.is_failed
        = r.isExc) := by
  have hres := (run_noDoneCall k t (World.init rc rdc smf smc) h).1
  constructor
  · show (((World.init rc rdc smf smc).run k t).op.res).isExc = false
    rw [hres]
    rfl
  · rfl

/-- Witness for C8: a subscription, a future request and a state-machine
transition, then completion with a captured failure. -/
theorem c8_witness :
    ((World.init false false false "st").run 0
        [OpEvent.subscribeEv 7, OpEvent.futureEv,
         OpEvent.smFinish]).op.is_failed = false
    ∧ ((((World.init false false false "st").run 0
          [OpEvent.subscribeEv 7, OpEvent.futureEv,
           OpEvent.smFinish]).opDone (StoredResult.exc sampleFailure)
            0).1.op.is_failed
        = StoredResult.isExc (StoredResult.exc sampleFailure)) :=
  c8_is_failed false false false "st" 0
    [OpEvent.subscribeEv 7, OpEvent.futureEv, OpEvent.smFinish]
    (StoredResult.exc sampleFailure) rfl

/-- C10: if the externally supplied state machine reports terminal
status while the completion entry point has never been invoked, `result`
does not raise NotReady: under every aliasing mode it returns the unset
marker `None` (copying `None` yields `None`), and `is_failed` is
`false`. -/
theorem c10_terminal_without_done (rc rdc : Bool) (smc : String)
    (k k2 : Nat) (t : List OpEvent)
    (h : noDoneCall t = true)
    (hsm : ((World.init rc rdc false smc).run k t).op.sm_finished = true) :
    ((World.init rc rdc false smc).run k t).op.resultAccessor k2 =
      ResultOutcome.value (PyVal.atom Atom.pnone)
    ∧ ((World.init rc rdc false smc).run k t).op.is_failed = false := by
  have hp := run_noDoneCall k t (World.init rc rdc false smc) h
  have hres : ((World.init rc rdc false smc).run k t).op.res =
      StoredResult.unset := hp.1
  constructor
  · have hrc : ((World.init rc rdc false smc).run k t).op.result_copy =
        rc := hp.2.2.1
    have hrdc : ((World.init rc rdc false smc).run k t).op.result_deepcopy =
        rdc := hp.2.2.2
    cases rc <;> cases rdc <;>
      simp [OpState.resultAccessor, OpState.resultWithState, OpState.is_done,
        hsm, hres, hrc, hrdc, StoredResult.unset, shallowCopyVal, deepCopyVal]
  · simp [OpState.is_failed, hres, StoredResult.unset, StoredResult.isExc]

/-- Witness for C10: the state machine becomes terminal, `_done` is
never called; shallow-copy mode. -/
theorem c10_witness :
    ((World.init true false false "st").run 0
        [OpEvent.smFinish]).op.sm_finished = true
    ∧ ((World.init true false false "st").run 0
        [OpEvent.smFinish]).op.resultAccessor 5 =
          ResultOutcome.value (PyVal.atom Atom.pnone)
    ∧ ((World.init true false false "st").run 0
        [OpEvent.smFinish]).op.is_failed = false :=
  ⟨rfl, c10_terminal_without_done true false "st" 0 5 [OpEvent.smFinish]
    rfl rfl⟩

/-- C3: for every completed operation whose stored result is a captured
failure, `result` re-raises that failure (same kind and message as the
captured one) instead of returning a value, leaving the state unchanged;
`_set_future` rejects the future with that same raised failure, and a
future obtained via the `future` property when the operation is done is
rejected with it immediately — both consumption paths surface one and
the same failure. -/
theorem c3_failure_surfaces_everywhere (op : OpState) (k : Nat)
    (fs : List FutureState) (e : AsynchronousException)
    (hd : op.is_done = true) (hr : op.res = StoredResult.exc e) :
    op.resultWithState k = (ResultOutcome.raised e.reraise, op)
    ∧ op.set_future k = FutureState.rejected e.reraise
    ∧ ((World.futureProp { op := op, futures := fs } k).1.futures)[fs.length]?
        = some (FutureState.rejected e.reraise)
    ∧ e.reraise.kind = e.kind ∧ e.reraise.message = e.message := by
  have h1 : op.resultWithState k = (ResultOutcome.raised e.reraise, op) := by
    simp [OpState.resultWithState, hd, hr]
  have h2 : op.set_future k = FutureState.rejected e.reraise := by
    simp [OpState.set_future, OpState.resultAccessor, h1]
  refine ⟨h1, h2, ?_, rfl, rfl⟩
  have h3 : (World.futureProp { op := op, futures := fs } k).1.futures =
      fs ++ [op.set_future k] := by
    simp [World.futureProp, hd]
  rw [h3, h2]
  exact List.getElem?_concat_length fs _

/-- Witness for C3 at a concrete failed operation. -/
theorem c3_witness :
    (OpState.init false false true "done").is_done = true
    ∧ ({ OpState.init false false true "done" with
          res := StoredResult.exc sampleFailure }).resultWithState 0 =
        (ResultOutcome.raised sampleFailure.reraise,
          { OpState.init false false true "done" with
            res := StoredResult.exc sampleFailure })
    ∧ ({ OpState.init false false true "done" with
          res := StoredResult.exc sampleFailure }).set_future 0 =
        FutureState.rejected sampleFailure.reraise := by
  have h := c3_failure_surfaces_everywhere
    { OpState.init false false true "done" with
      res := StoredResult.exc sampleFailure } 0 [] sampleFailure rfl rfl
  exact ⟨rfl, h.1, h.2.1⟩

/-- C6: along any life of an operation that respects the documented
at-most-once contract on the completion entry point, the stored result
is the unset marker `None` and the done flag is `false` at every point
before the completion call (monotonic false-to-true), and from the
completion call on, the result equals the delivered value and the flag
is `true`, and neither ever changes again (write-once). -/
theorem c6_done_monotonic_result_write_once (rc rdc smf : Bool)
    (smc : String) (k : Nat) (t1 t2 : List OpEvent) (r : StoredResult)
    (h1 : noDoneCall t1 = true) (h2 : noDoneCall t2 = true) :
    (∀ p, List.IsPrefix p t1 →
      ((World.init rc rdc smf smc).run k p).op.res = StoredResult.unset
      ∧ ((World.init rc rdc smf smc).run k p).op.done_evt = false)
    ∧ (∀ p, List.IsPrefix p t2 →
      ((World.init rc rdc smf smc).run k
          (t1 ++ OpEvent.doneCall r :: p)).op.res = r
      ∧ ((World.init rc rdc smf smc).run k
          (t1 ++ OpEvent.doneCall r :: p)).op.done_evt = true) := by
  constructor
  · intro p hp
    obtain ⟨s, hs⟩ := hp
    have hnp : noDoneCall p = true := by
      have h3 : noDoneCall (p ++ s) = true := by rw [hs]; exact h1
      simp only [noDoneCall, List.all_append, Bool.and_eq_true] at h3
      exact h3.1
    have h4 := run_noDoneCall k p (World.init rc rdc smf smc) hnp
    exact ⟨h4.1, h4.2.1⟩
  · intro p hp
    obtain ⟨s, hs⟩ := hp
    have hnp : noDoneCall p = true := by
      have h3 : noDoneCall (p ++ s) = true := by rw [hs]; exact h2
      simp only [noDoneCall, List.all_append, Bool.and_eq_true] at h3
      exact h3.1
    rw [run_append]
    have h5 := run_noDoneCall k p
      ((((World.init rc rdc smf smc).run k t1).opDone r k).1) hnp
    exact ⟨h5.1, h5.2.1⟩

/-- Witness for C6: a subscription and a future request before
completion, a state-machine transition, completion, then another
subscription afterwards. -/
theorem c6_witness :
    (((World.init true true false "st").run 3
        [OpEvent.subscribeEv 1, OpEvent.futureEv]).op.res =
          StoredResult.unset
      ∧ ((World.init true true false "st").run 3
          [OpEvent.subscribeEv 1, OpEvent.futureEv]).op.done_evt = false)
    ∧ (((World.init true true false "st").run 3
        ([OpEvent.subscribeEv 1, OpEvent.futureEv, OpEvent.smFinish] ++
          OpEvent.doneCall (StoredResult.val (PyVal.atom (Atom.pint 7))) ::
            [OpEvent.subscribeEv 2])).op.res =
          StoredResult.val (PyVal.atom (Atom.pint 7))
      ∧ ((World.init true true false "st").run 3
          ([OpEvent.subscribeEv 1, OpEvent.futureEv, OpEvent.smFinish] ++
            OpEvent.doneCall (StoredResult.val (PyVal.atom (Atom.pint 7))) ::
              [OpEvent.subscribeEv 2])).op.done_evt = true) := by
  have h := c6_done_monotonic_result_write_once true true false "st" 3
    [OpEvent.subscribeEv 1, OpEvent.futureEv, OpEvent.smFinish]
    [OpEvent.subscribeEv 2]
    (StoredResult.val (PyVal.atom (Atom.pint 7))) rfl rfl
  refine ⟨h.1 [OpEvent.subscribeEv 1, OpEvent.futureEv] ?_,
    h.2 [OpEvent.subscribeEv 2] (List.prefix_refl _)⟩
  exact ⟨[OpEvent.smFinish], rfl⟩

/-- Filtering the notifications of an `emit` for one listener counts
that listener's occurrences among the connected slots. -/
theorem filter_listener_map (ls : List Listener) (st : OpState)
    (L : Listener) :
    ((ls.map (fun l => Notification.mk l st)).filter
        (fun n => n.listener == L)).length =
      (ls.filter (fun l => l == L)).length := by
  induction ls with
  | nil => rfl
  | cons l rest ih =>
      simp only [List.map_cons, List.filter_cons]
      cases h : (l == L) <;> simp [h, ih]

/-- C7: subscribing a completion listener after completion has already
occurred invokes it immediately — synchronously, within the `subscribe`
call — exactly once, with the operation as payload; subscribing before
completion performs no immediate invocation, and the listener is then
invoked exactly once among the notifications delivered when the
completion entry point fires the signal. -/
theorem c7_subscribe_before_and_after (w : World) (lid : Nat) (k : Nat)
    (r : StoredResult)
    (hcount : w.op.listeners.count (Listener.plain lid) = 0) :
    (w.op.sig_fired = true →
      (w.subscribe lid).2 =
        [{ listener := Listener.plain lid,
           payload := (w.subscribe lid).1.op }])
    ∧ (w.op.sig_fired = false →
      (w.subscribe lid).2 = []
      ∧ (((w.subscribe lid).1.opDone r k).2.filter
          (fun n => n.listener == Listener.plain lid)).length = 1) := by
  constructor
  · intro hf
    simp [World.subscribe, hf]
  · intro hf
    constructor
    · simp [World.subscribe, hf]
    · have hls : (w.subscribe lid).1.op.listeners =
          w.op.listeners ++ [Listener.plain lid] := by
        simp [World.subscribe, hf]
      have hnotifs : (((w.subscribe lid).1).opDone r k).2 =
          ((w.subscribe lid).1.op.listeners).map
            (fun l => Notification.mk l
              ((((w.subscribe lid).1).opDone r k).1.op)) := by
        simp [World.opDone, deliver_snd]
      rw [hnotifs, hls, filter_listener_map]
      have hzero : (w.op.listeners.filter
          (fun l => l == Listener.plain lid)).length = 0 := by
        rw [← List.countP_eq_length_filter]
        exact hcount
      have hone : (([Listener.plain lid]).filter
          (fun l => l == Listener.plain lid)).length = 1 := by simp
      rw [List.filter_append, List.length_append, hzero, hone]

/-- Witness for C7: first subscription on a fresh operation, completion
delivered afterwards. -/
theorem c7_witness :
    ((World.init true true false "st").op.sig_fired = true →
      ((World.init true true false "st").subscribe 5).2 =
        [Notification.mk (Listener.plain 5)
          ((World.init true true false "st").subscribe 5).1.op])
    ∧ ((World.init true true false "st").op.sig_fired = false →
      ((World.init true true false "st").subscribe 5).2 = []
      ∧ ((((World.init true true false "st").subscribe 5).1.opDone
            (StoredResult.val (PyVal.atom Atom.pnone)) 0).2.filter
          (fun n => n.listener == Listener.plain 5)).length = 1) :=
  c7_subscribe_before_and_after (World.init true true false "st") 5 0
    (StoredResult.val (PyVal.atom Atom.pnone)) rfl

/-- `_set_future` always assigns the future: it never leaves it
pending. -/
theorem set_future_ne_pending (op : OpState) (k : Nat) :
    op.set_future k ≠ FutureState.pending := by
  cases hres : op.resultAccessor k <;> simp [OpState.set_future, hres]

/-- `_set_future` resolves the future with the value `result` returns. -/
theorem set_future_value (op : OpState) (k : Nat) (v : PyVal)
    (h : op.resultAccessor k = ResultOutcome.value v) :
    op.set_future k = FutureState.resolved v := by
  simp [OpState.set_future, h]

/-- `_set_future` rejects the future with the failure `result` raises. -/
theorem set_future_raised (op : OpState) (k : Nat) (e : RaisedFailure)
    (h : op.resultAccessor k = ResultOutcome.raised e) :
    op.set_future k = FutureState.rejected e := by
  simp [OpState.set_future, h]

/-- After `_done`, a future cell whose bridge slot was connected holds
exactly what `_set_future` produces from the completed operation. -/
theorem opDone_bridge_future (w : World) (r : StoredResult) (k j : Nat)
    (hmem : Listener.futureBridge j ∈ w.op.listeners)
    (hj : j < w.futures.length) :
    ((w.opDone r k).1.futures)[j]? =
      some ((w.opDone r k).1.op.set_future k) :=
  deliver_get_bridge _ k w.op.listeners w.futures j hmem hj

/-- C5: reading the `future` property while the operation is already
done assigns the new future immediately (synchronously) with exactly the
outcome `result` would produce — resolved with the success value per
aliasing mode, or rejected with the re-raised failure; reading it while
not yet done yields a future that is still pending (also after the state
machine later turns terminal) and that is assigned, with the outcome
`result` then produces, at the moment the completion entry point fires
the signal. -/
theorem c5_future_immediate_or_on_completion (w : World) (k : Nat)
    (r : StoredResult) :
    (w.op.sm_finished = true →
      ((w.futureProp k).1.futures)[w.futures.length]? =
          some (w.op.set_future k)
      ∧ w.op.set_future k ≠ FutureState.pending
      ∧ (∀ v, w.op.resultAccessor k = ResultOutcome.value v →
          w.op.set_future k = FutureState.resolved v)
      ∧ (∀ e, w.op.resultAccessor k = ResultOutcome.raised e →
          w.op.set_future k = FutureState.rejected e))
    ∧ (w.op.sm_finished = false →
      ((w.futureProp k).1.futures)[w.futures.length]? =
          some FutureState.pending
      ∧ ((((w.futureProp k).1.step OpEvent.smFinish k).futures)[w.futures.length]? =
          some FutureState.pending)
      ∧ (((((w.futureProp k).1.step OpEvent.smFinish k).opDone r k).1.futures)[w.futures.length]?
          = some (((((w.futureProp k).1.step OpEvent.smFinish k).opDone r k).1.op).set_future k))
      ∧ ((((w.futureProp k).1.step OpEvent.smFinish k).opDone r k).1.op).set_future k
          ≠ FutureState.pending
      ∧ (∀ v, ((((w.futureProp k).1.step OpEvent.smFinish k).opDone r k).1.op).resultAccessor k
            = ResultOutcome.value v →
          ((((w.futureProp k).1.step OpEvent.smFinish k).opDone r k).1.op).set_future k
            = FutureState.resolved v)
      ∧ (∀ e, ((((w.futureProp k).1.step OpEvent.smFinish k).opDone r k).1.op).resultAccessor k
            = ResultOutcome.raised e →
          ((((w.futureProp k).1.step OpEvent.smFinish k).opDone r k).1.op).set_future k
            = FutureState.rejected e)) := by
  constructor
  · intro hsm
    have hfp : (w.futureProp k).1.futures = w.futures ++ [w.op.set_future k] := by
      simp [World.futureProp, OpState.is_done, hsm]
    refine ⟨?_, set_future_ne_pending w.op k,
      fun v hv => set_future_value w.op k v hv,
      fun e he => set_future_raised w.op k e he⟩
    rw [hfp]
    exact List.getElem?_concat_length _ _
  · intro hsm
    have hfp1 : (w.futureProp k).1.futures = w.futures ++ [FutureState.pending] := by
      simp [World.futureProp, OpState.is_done, hsm]
    have hfp2 : (w.futureProp k).1.op.listeners =
        w.op.listeners ++ [Listener.futureBridge w.futures.length] := by
      simp [World.futureProp, OpState.is_done, hsm]
    have hstepf : ((w.futureProp k).1.step OpEvent.smFinish k).futures =
        w.futures ++ [FutureState.pending] := hfp1
    have hstepl : ((w.futureProp k).1.step OpEvent.smFinish k).op.listeners =
        w.op.listeners ++ [Listener.futureBridge w.futures.length] := hfp2
    refine ⟨?_, ?_, ?_, set_future_ne_pending _ k,
      fun v hv => set_future_value _ k v hv,
      fun e he => set_future_raised _ k e he⟩
    · rw [hfp1]
      exact List.getElem?_concat_length _ _
    · rw [hstepf]
      exact List.getElem?_concat_length _ _
    · apply opDone_bridge_future
      · rw [hstepl]
        exact List.mem_append_right _ (List.mem_singleton.mpr rfl)
      · rw [hstepf, List.length_append, List.length_singleton]
        omega

/-- Witness for C5: a future requested on a not-yet-done operation, the
state machine turning terminal, then completion with the value 7. -/
theorem c5_witness :
    ((World.init false false true "done").op.sm_finished = true →
      (((World.init false false true "done").futureProp 0).1.futures)[
          (World.init false false true "done").futures.length]? =
        some ((World.init false false true "done").op.set_future 0)
      ∧ (World.init false false true "done").op.set_future 0 ≠
          FutureState.pending
      ∧ (∀ v, (World.init false false true "done").op.resultAccessor 0 =
            ResultOutcome.value v →
          (World.init false false true "done").op.set_future 0 =
            FutureState.resolved v)
      ∧ (∀ e, (World.init false false true "done").op.resultAccessor 0 =
            ResultOutcome.raised e →
          (World.init false false true "done").op.set_future 0 =
            FutureState.rejected e))
    ∧ ((World.init false false true "done").op.sm_finished = false →
      ((((World.init false false true "done").futureProp 0).1.futures)[
          (World.init false false true "done").futures.length]? =
        some FutureState.pending)
      ∧ (((((World.init false false true "done").futureProp 0).1.step
            OpEvent.smFinish 0).futures)[
          (World.init false false true "done").futures.length]? =
        some FutureState.pending)
      ∧ ((((((World.init false false true "done").futureProp 0).1.step
            OpEvent.smFinish 0).opDone
              (StoredResult.val (PyVal.atom (Atom.pint 7))) 0).1.futures)[
          (World.init false false true "done").futures.length]?
        = some ((((((World.init false false true "done").futureProp 0).1.step
            OpEvent.smFinish 0).opDone
              (StoredResult.val (PyVal.atom (Atom.pint 7))) 0).1.op).set_future 0))
      ∧ ((((((World.init false false true "done").futureProp 0).1.step
            OpEvent.smFinish 0).opDone
              (StoredResult.val (PyVal.atom (Atom.pint 7))) 0).1.op).set_future 0
          ≠ FutureState.pending)
      ∧ (∀ v, (((((World.init false false true "done").futureProp 0).1.step
            OpEvent.smFinish 0).opDone
              (StoredResult.val (PyVal.atom (Atom.pint 7))) 0).1.op).resultAccessor 0
            = ResultOutcome.value v →
          (((((World.init false false true "done").futureProp 0).1.step
            OpEvent.smFinish 0).opDone
              (StoredResult.val (PyVal.atom (Atom.pint 7))) 0).1.op).set_future 0
            = FutureState.resolved v)
      ∧ (∀ e, (((((World.init false false true "done").futureProp 0).1.step
            OpEvent.smFinish 0).opDone
              (StoredResult.val (PyVal.atom (Atom.pint 7))) 0).1.op).resultAccessor 0
            = ResultOutcome.raised e →
          (((((World.init false false true "done").futureProp 0).1.step
            OpEvent.smFinish 0).opDone
              (StoredResult.val (PyVal.atom (Atom.pint 7))) 0).1.op).set_future 0
            = FutureState.rejected e)) :=
  c5_future_immediate_or_on_completion (World.init false false true "done") 0
    (StoredResult.val (PyVal.atom (Atom.pint 7)))

/-- C2 (amended): for a completed successful operation holding value `v`
(all addresses of `v` below the allocation counter `k`), `result`
returns: with copying disabled, the identical stored reference; with
copying enabled and deep-copy disabled, Python's shallow copy — for a
container a new, distinct object (fresh address, not among the
original's) sharing exactly the original's immediate elements, but for
an immutable atom the identical value itself; with copying and deep-copy
enabled, a deep copy — structurally equal to the original and sharing no
container address with it. -/
theorem c2_result_aliasing_amended (op : OpState) (k : Nat) (v : PyVal)
    (hd : op.is_done = true) (hv : op.res = StoredResult.val v)
    (hk : ∀ a ∈ v.addrs, a < k) :
    (op.result_copy = false → op.resultAccessor k = ResultOutcome.value v)
    ∧ (op.result_copy = true → op.result_deepcopy = false →
        (∀ n xs, v = PyVal.ref n xs →
          op.resultAccessor k = ResultOutcome.value (PyVal.ref k xs)
          ∧ n ≠ k ∧ k ∉ v.addrs)
        ∧ (∀ a, v = PyVal.atom a →
          op.resultAccessor k = ResultOutcome.value (PyVal.atom a)))
    ∧ (op.result_copy = true → op.result_deepcopy = true →
        op.resultAccessor k = ResultOutcome.value (deepCopyVal v k).1
        ∧ PyVal.erase (deepCopyVal v k).1 = PyVal.erase v
        ∧ ∀ a ∈ PyVal.addrs (deepCopyVal v k).1, a ∉ v.addrs) := by
  refine ⟨?_, ?_, ?_⟩
  · intro hc
    simp [OpState.resultAccessor, OpState.resultWithState, hd, hv, hc]
  · intro hc hdc
    constructor
    · intro n xs hval
      have hacc : op.resultAccessor k =
          ResultOutcome.value (shallowCopyVal v k) := by
        simp [OpState.resultAccessor, OpState.resultWithState, hd, hv, hc, hdc]
      have hn : n ∈ v.addrs := by
        rw [hval]; exact List.mem_cons_self _ _
      have hnk : n < k := hk n hn
      refine ⟨?_, by omega, ?_⟩
      · rw [hacc, hval]; rfl
      · intro hmem
        have := hk k hmem
        omega
    · intro a hval
      rw [hval] at hv
      simp [OpState.resultAccessor, OpState.resultWithState, hd, hv, hc, hdc,
        shallowCopyVal]
  · intro hc hdc
    refine ⟨?_, erase_deepCopyVal v k, ?_⟩
    · simp [OpState.resultAccessor, OpState.resultWithState, hd, hv, hc, hdc]
    · intro a ha hmem
      have h1 := addrs_deepCopyVal_lb v k a ha
      have h2 := hk a hmem
      omega

/-- C2 counterexample: a completed successful operation in shallow-copy
mode (`result_copy=True`, `result_deepcopy=False`) whose stored value is
the immutable atom `12345`.  `copy.copy` of an immutable returns the
very same object, so `result` returns the identical stored reference —
not a distinct object with equal shallow content, contradicting the
claim's shallow-copy clause. -/
theorem c2_shallow_atom_counterexample :
    ({ OpState.init true false true "done" with res := StoredResult.val (PyVal.atom (Atom.pint 12345)) }).is_done = true
    ∧ ({ OpState.init true false true "done" with res := StoredResult.val (PyVal.atom (Atom.pint 12345)) }).result_copy = true
    ∧ ({ OpState.init true false true "done" with res := StoredResult.val (PyVal.atom (Atom.pint 12345)) }).result_deepcopy = false
    ∧ ({ OpState.init true false true "done" with res := StoredResult.val (PyVal.atom (Atom.pint 12345)) }).resultAccessor 100 =
        ResultOutcome.value (PyVal.atom (Atom.pint 12345))
    ∧ PyVal.isSameObject (PyVal.atom (Atom.pint 12345))
        (PyVal.atom (Atom.pint 12345)) = true := by
  refine ⟨rfl, rfl, rfl, rfl, ?_⟩
  simp [PyVal.isSameObject]

/-- Witness for C2 (amended) in deep-copy mode on the nested container
`vC2`. -/
theorem c2_witness :
    (∀ a ∈ PyVal.addrs vC2, a < 10)
    ∧ (opC2.resultAccessor 10 = ResultOutcome.value (deepCopyVal vC2 10).1
       ∧ PyVal.erase (deepCopyVal vC2 10).1 = PyVal.erase vC2
       ∧ ∀ a ∈ PyVal.addrs (deepCopyVal vC2 10).1, a ∉ PyVal.addrs vC2) := by
  refine ⟨by decide, ?_⟩
  exact (c2_result_aliasing_amended opC2 10 vC2 rfl rfl (by decide)).2.2 rfl rfl

/-- Witness for C4: completion with the value 9 on an operation with one
connected consumer slot. -/
theorem c4_witness :
    ((((World.init false false true "done").subscribe 3).1.opDone
        (StoredResult.val (PyVal.atom (Atom.pint 9))) 0).1.op.res =
      StoredResult.val (PyVal.atom (Atom.pint 9)))
    ∧ ((((World.init false false true "done").subscribe 3).1.opDone
        (StoredResult.val (PyVal.atom (Atom.pint 9))) 0).1.op.done_evt = true)
    ∧ ((((World.init false false true "done").subscribe 3).1.opDone
        (StoredResult.val (PyVal.atom (Atom.pint 9))) 0).2 =
      ((World.init false false true "done").subscribe 3).1.op.listeners.map
        (fun l => Notification.mk l
          ((((World.init false false true "done").subscribe 3).1.opDone
            (StoredResult.val (PyVal.atom (Atom.pint 9))) 0).1.op)))
    ∧ ∀ n ∈ (((World.init false false true "done").subscribe 3).1.opDone
        (StoredResult.val (PyVal.atom (Atom.pint 9))) 0).2,
        n.payload.res = StoredResult.val (PyVal.atom (Atom.pint 9))
        ∧ n.payload.done_evt = true :=
  c4_done_stores_sets_then_fires
    (((World.init false false true "done").subscribe 3).1)
    (StoredResult.val (PyVal.atom (Atom.pint 9))) 0
